import Mathlib

/-!
Shallow embedding of the kasfam-handsfree decision pipeline.

The TypeScript sources are translated into executable Lean definitions:

* `src/gptClient.ts` — response-format validation of `askTweetDecision`
  (trimming, marker detection, percentile extraction) as pure functions on
  the oracle's output text.
* `src/openaiRetry.ts` and the local retry loop in `src/gptClient.ts` —
  the retry policy, with the wrapped operation modelled as a function from
  the 1-based attempt number to that attempt's outcome, and each backoff
  sleep recorded as a counter (the claims under study only count delays,
  they do not depend on the delay duration).
* `src/tweetStore.ts` — the SQLite `tweets` table as a list of rows;
  each prepared statement becomes a state transformer with SQLite upsert /
  update semantics.  Timestamps (`datetime('now')` strings, compared
  lexicographically by SQLite) are modelled as naturals supplied by the
  caller as a clock argument.
* `src/migrations.ts` plus the three `.sql` files under `migrations/` —
  the schema-evolution runner over an abstract schema state.
* `src/prompt.ts` — `buildPromptWithExamples`, parameterised by the base
  instruction string (whose contents no property depends on).

Definitions come first, theorems afterwards.
-/

/-! ## JavaScript string primitives -/

/-- The JavaScript whitespace class: the characters matched by the regex
class `\s` and trimmed by `String.prototype.trim`. -/
def jsIsSpace (c : Char) : Bool :=
  let n := c.toNat
  n = 0x20 || n = 0x09 || n = 0x0a || n = 0x0d || n = 0x0b || n = 0x0c ||
  n = 0xa0 || n = 0x1680 || (0x2000 ≤ n && n ≤ 0x200a) || n = 0x2028 ||
  n = 0x2029 || n = 0x202f || n = 0x205f || n = 0x3000 || n = 0xfeff

/-- `String.prototype.trim`: strip leading and trailing whitespace. -/
def jsTrim (s : String) : String :=
  (((s.toList.dropWhile jsIsSpace).reverse.dropWhile jsIsSpace).reverse).asString

/-- `String.prototype.startsWith` (case-sensitive). -/
def jsStartsWith (s p : String) : Bool :=
  p.toList.isPrefixOf s.toList

/-- Helper for `String.prototype.includes` on character lists. -/
def listIncludes (needle : List Char) : List Char → Bool
  | [] => needle.isEmpty
  | c :: t => needle.isPrefixOf (c :: t) || listIncludes needle t

/-- `String.prototype.includes`. -/
def jsIncludes (hay needle : String) : Bool :=
  listIncludes needle.toList hay.toList

/-- `String.prototype.toLowerCase` (ASCII case folding, which is all the
source's literal patterns need). -/
def jsToLower (s : String) : String :=
  (s.toList.map Char.toLower).asString

/-- Match a literal pattern (already lower-cased) case-insensitively at the
head of the input, returning the remainder on success.  Models a regex
literal under the `i` flag. -/
def matchCaseInsensitive : List Char → List Char → Option (List Char)
  | [], rest => some rest
  | _ :: _, [] => none
  | p :: ps, c :: cs => if c.toLower = p then matchCaseInsensitive ps cs else none

/-- Match a literal pattern case-sensitively at the head of the input,
returning the remainder on success. -/
def matchLiteral : List Char → List Char → Option (List Char)
  | [], rest => some rest
  | _ :: _, [] => none
  | p :: ps, c :: cs => if c = p then matchLiteral ps cs else none

/-- Decimal value of a digit string, as read by `parseInt(_, 10)`. -/
def digitsToNat (ds : List Char) : Nat :=
  ds.foldl (fun a c => 10 * a + (c.toNat - 48)) 0

/-! ## gptClient.ts — response parsing of askTweetDecision -/

/-- One attempt of the regex `/Percentile:\s*(\d+)/i` anchored at the
current position: the literal `Percentile:` case-insensitively, then
whitespace, then at least one digit (`\s` and `\d` are disjoint, so the
greedy whitespace run needs no backtracking). -/
def percentileMatchAt (cs : List Char) : Option Nat :=
  match matchCaseInsensitive ("percentile:".toList) cs with
  | none => none
  | some rest =>
    let ds := (rest.dropWhile jsIsSpace).takeWhile Char.isDigit
    if ds.isEmpty then none else some (digitsToNat ds)

/-- Leftmost match of `/Percentile:\s*(\d+)/i`, as `String.prototype.match`
finds it: try each position left to right. -/
def findPercentileList : List Char → Option Nat
  | [] => none
  | c :: cs =>
    match percentileMatchAt (c :: cs) with
    | some n => some n
    | none => findPercentileList cs

/-- The captured percentile of `quote.match(/Percentile:\s*(\d+)/i)`,
already parsed with `parseInt(_, 10)`. -/
def findPercentile (s : String) : Option Nat :=
  findPercentileList s.toList

/-- Result record of `askTweetDecision` (gptClient.ts). -/
structure AskTweetDecisionResult where
  quote : String
  approved : Bool
  score : Nat
  responseId : String
deriving DecidableEq

/-- `MalformedResponseError`: message plus the raw response text the
constructor stores in its `rawResponse` field. -/
structure MalformedResponseError where
  message : String
  rawResponse : String
deriving DecidableEq

/-- `response.output_text?.trim() ?? ""` (gptClient.ts line 119): the
oracle's output text may be absent. -/
def quoteOfOutput (output_text : Option String) : String :=
  match output_text with
  | some s => jsTrim s
  | none => ""

/-- The validation and parsing part of `askTweetDecision`
(gptClient.ts lines 119-153), as a pure function of the oracle's output
text and response id.  The JavaScript `score < 0` test is unreachable
(the regex group is `\d+`), so the score is a natural and only the
`score > 100` test remains. -/
def askTweetDecision (output_text : Option String) (responseId : String) :
    Except MalformedResponseError AskTweetDecisionResult :=
  let quote := quoteOfOutput output_text
  if quote = "" then
    Except.error ⟨"Empty response from model", quote⟩
  else
    let isApproved := jsStartsWith quote "Approved"
    let isRejected := jsStartsWith quote "Rejected"
    if !isApproved && !isRejected then
      Except.error
        ⟨"Response must start with \"Approved\" or \"Rejected\", got: \"" ++
          quote.take 50 ++ "...\"", quote⟩
    else
      if isApproved then
        match findPercentile quote with
        | none =>
          Except.error
            ⟨"Approved response missing Percentile field: \"" ++ quote.take 100 ++ "...\"",
              quote⟩
        | some score =>
          if 100 < score then
            Except.error ⟨"Percentile must be 0-100, got: " ++ toString score, quote⟩
          else
            Except.ok ⟨quote, true, score, responseId⟩
      else
        Except.ok ⟨quote, isApproved, 0, responseId⟩

/-! ## openaiRetry.ts and gptClient.ts — the retry loops

An `APIError` models an `OpenAI.APIError` value: the `isAPIError` flag is
the `instanceof` test, the remaining fields are the properties the two
retry loops inspect. -/

structure APIError where
  isAPIError : Bool
  status : Option Nat
  code : Option String
  errType : Option String
  message : Option String
deriving DecidableEq

/-- Trace of one `withRetry` run: the final outcome, the 1-based index of
the last attempt made (so also the number of attempts), and the number of
backoff sleeps performed. -/
structure RetryOutcome (T : Type) where
  result : Except APIError T
  attempts : Nat
  backoffs : Nat

namespace OpenaiRetry

def MAX_RETRIES : Nat := 3

/-- `isRateLimitError` (openaiRetry.ts): an `OpenAI.APIError` with
status 429. -/
def isRateLimitError (e : APIError) : Bool :=
  e.isAPIError && e.status == some 429

/-- `isQuotaOrBillingError` (openaiRetry.ts): lower-cased substring tests
on code, type and message. -/
def isQuotaOrBillingError (e : APIError) : Bool :=
  if !e.isAPIError then false
  else
    let code := jsToLower (e.code.getD "")
    let ty := jsToLower (e.errType.getD "")
    let message := jsToLower (e.message.getD "")
    jsIncludes code "insufficient_quota" || jsIncludes code "billing_hard_limit_reached" ||
    jsIncludes ty "insufficient_quota" || jsIncludes ty "billing_hard_limit_reached" ||
    jsIncludes message "insufficient_quota" || jsIncludes message "billing" ||
    jsIncludes message "hard limit"

/-- The loop body of `withRetry` (openaiRetry.ts lines 42-68).  `rest` is
the number of attempts still allowed after the current one (so the
`attempt === MAX_RETRIES` break is the `rest = 0` case, and breaking
followed by `throw lastError` is returning the current error).  Each
`setTimeout` backoff increments the `backoffs` counter. -/
def withRetryAux (op : Nat → Except APIError T) :
    Nat → Nat → Nat → RetryOutcome T
  | 0, attempt, backoffs =>
    match op attempt with
    | Except.ok v => ⟨Except.ok v, attempt, backoffs⟩
    | Except.error e => ⟨Except.error e, attempt, backoffs⟩
  | rest + 1, attempt, backoffs =>
    match op attempt with
    | Except.ok v => ⟨Except.ok v, attempt, backoffs⟩
    | Except.error e =>
      if !(isRateLimitError e) then ⟨Except.error e, attempt, backoffs⟩
      else if isQuotaOrBillingError e then ⟨Except.error e, attempt, backoffs⟩
      else withRetryAux op rest (attempt + 1) (backoffs + 1)

/-- `withRetry` (openaiRetry.ts): run the operation for up to
`MAX_RETRIES` attempts, starting at attempt 1. -/
def withRetry (op : Nat → Except APIError T) : RetryOutcome T :=
  withRetryAux op (MAX_RETRIES - 1) 1 0

end OpenaiRetry

namespace GptClient

def MAX_RETRIES : Nat := 3

/-- `isRateLimitError` (gptClient.ts): identical to the openaiRetry.ts
version. -/
def isRateLimitError (e : APIError) : Bool :=
  e.isAPIError && e.status == some 429

/-- The local `withRetry` of gptClient.ts (lines 39-65): same loop as
openaiRetry.ts but with no quota/billing check, so every 429 error is
retried. -/
def withRetryAux (op : Nat → Except APIError T) :
    Nat → Nat → Nat → RetryOutcome T
  | 0, attempt, backoffs =>
    match op attempt with
    | Except.ok v => ⟨Except.ok v, attempt, backoffs⟩
    | Except.error e => ⟨Except.error e, attempt, backoffs⟩
  | rest + 1, attempt, backoffs =>
    match op attempt with
    | Except.ok v => ⟨Except.ok v, attempt, backoffs⟩
    | Except.error e =>
      if !(isRateLimitError e) then ⟨Except.error e, attempt, backoffs⟩
      else withRetryAux op rest (attempt + 1) (backoffs + 1)

/-- `withRetry` as defined locally in gptClient.ts — the copy actually
invoked by `askTweetDecision` and `quickFilterTweet`. -/
def withRetry (op : Nat → Except APIError T) : RetryOutcome T :=
  withRetryAux op (MAX_RETRIES - 1) 1 0

end GptClient

/-! ## tweetStore.ts — the tweets table

A `TweetRow` is one row of the `tweets` table after all migrations:
`approved` is the stored nullable INTEGER (the reading code maps it
through `Boolean`), timestamps are naturals standing for the
`datetime('now')` strings SQLite compares lexicographically.  Every
mutating store operation takes the current clock value `now`. -/

inductive HumanDecision
  | APPROVED
  | REJECTED
deriving DecidableEq

inductive GoldExampleType
  | GOOD
  | BAD
deriving DecidableEq

structure TweetRow where
  id : String
  text : String
  quote : String
  url : String
  approved : Option Int
  score : Nat
  createdAt : Nat
  updatedAt : Option Nat
  humanDecision : Option HumanDecision
  goldExampleType : Option GoldExampleType
  goldExampleCorrection : Option String
  authorUsername : Option String
deriving DecidableEq

/-- `TweetRawInput` (tweetStore.ts). -/
structure TweetRawInput where
  id : String
  text : String
  url : String
  authorUsername : Option String
deriving DecidableEq

/-- One attempt of the regex `/x\.com\/([^/]+)\/status/` anchored at the
current position: the literal `x.com/`, a non-empty run of non-`/`
characters (the capture group), then `/status`. -/
def extractAuthorAt (cs : List Char) : Option String :=
  match matchLiteral ("x.com/".toList) cs with
  | none => none
  | some rest =>
    let user := rest.takeWhile (fun c => c ≠ '/')
    if user.isEmpty then none
    else
      match rest.dropWhile (fun c => c ≠ '/') with
      | '/' :: r2 => if ("status".toList).isPrefixOf r2 then some user.asString else none
      | _ => none

/-- Leftmost-match scan for `extractAuthorFromUrl`. -/
def extractAuthorScan : List Char → Option String
  | [] => none
  | c :: cs =>
    match extractAuthorAt (c :: cs) with
    | some u => some u
    | none => extractAuthorScan cs

/-- `extractAuthorFromUrl` (tweetStore.ts): the first capture of
`url.match(/x\.com\/([^/]+)\/status/)`, or null. -/
def extractAuthorFromUrl (url : String) : Option String :=
  extractAuthorScan url.toList

/-- `tweet.authorUsername ?? extractAuthorFromUrl(tweet.url)` — the
author value `saveRaw` binds before running the upsert. -/
def resolvedAuthor (tweet : TweetRawInput) : Option String :=
  match tweet.authorUsername with
  | some a => some a
  | none => extractAuthorFromUrl tweet.url

/-- SQL `COALESCE` on two nullable strings. -/
def coalesce (a b : Option String) : Option String :=
  match a with
  | some x => some x
  | none => b

/-- `saveRaw` (tweetStore.ts lines 119-132): the `insertRaw` upsert.
On conflict it updates only `text`, `url` and (via COALESCE) the author;
on first insert the schema defaults fill the remaining columns and
`createdAt` is set to the current clock. -/
def saveRaw (db : List TweetRow) (tweet : TweetRawInput) (now : Nat) : List TweetRow :=
  if db.any (fun r => r.id == tweet.id) then
    db.map (fun r =>
      if r.id == tweet.id then
        { r with
            text := tweet.text
            url := tweet.url
            authorUsername := coalesce (resolvedAuthor tweet) r.authorUsername }
      else r)
  else
    db ++ [{ id := tweet.id, text := tweet.text, quote := "", url := tweet.url,
             approved := none, score := 0, createdAt := now, updatedAt := none,
             humanDecision := none, goldExampleType := none,
             goldExampleCorrection := none, authorUsername := resolvedAuthor tweet }]

/-- `updateHumanDecision` (tweetStore.ts lines 265-273): an UPDATE with a
WHERE clause on the id — rows with other ids are untouched, and a missing
id matches no row at all. -/
def updateHumanDecision (db : List TweetRow) (id : String)
    (decision : Option HumanDecision) (now : Nat) : List TweetRow :=
  db.map (fun r =>
    if r.id == id then { r with humanDecision := decision, updatedAt := some now }
    else r)

/-- `setGoldExample` (tweetStore.ts lines 284-294): sets both gold-example
columns and `updatedAt` on the row with the given id, if any. -/
def setGoldExample (db : List TweetRow) (id : String)
    (type : Option GoldExampleType) (correction : Option String) (now : Nat) :
    List TweetRow :=
  db.map (fun r =>
    if r.id == id then
      { r with goldExampleType := type, goldExampleCorrection := correction,
               updatedAt := some now }
    else r)

/-- SQLite ordering on a nullable timestamp column: NULL sorts below every
value, so ascending puts NULLs first and descending puts them last. -/
def optNatLe : Option Nat → Option Nat → Bool
  | none, _ => true
  | some _, none => false
  | some a, some b => decide (a ≤ b)

/-- Comparator for `ORDER BY updatedAt DESC`. -/
def updatedAtDescLe (a b : TweetRow) : Bool :=
  optNatLe b.updatedAt a.updatedAt

/-- Position of a `goldExampleType` value in SQLite's ascending order on
the stored TEXT column: NULL first, then `BAD` before `GOOD`
(lexicographic on the stored strings). -/
def goldTypeRank : Option GoldExampleType → Nat
  | none => 0
  | some GoldExampleType.BAD => 1
  | some GoldExampleType.GOOD => 2

/-- Comparator for `ORDER BY goldExampleType, updatedAt DESC`. -/
def goldLexLe (a b : TweetRow) : Bool :=
  decide (goldTypeRank a.goldExampleType < goldTypeRank b.goldExampleType) ||
  (goldTypeRank a.goldExampleType == goldTypeRank b.goldExampleType &&
    optNatLe b.updatedAt a.updatedAt)

/-- `getGoldExamples` (tweetStore.ts lines 295-327): with a type filter the
query is `WHERE goldExampleType = @type ORDER BY updatedAt DESC`; without
one it is `WHERE goldExampleType IS NOT NULL ORDER BY goldExampleType,
updatedAt DESC`.  SQL leaves the relative order of ties unspecified; the
model uses a stable sort by the same keys. -/
def getGoldExamples (db : List TweetRow) : Option GoldExampleType → List TweetRow
  | some t =>
    (db.filter (fun r => r.goldExampleType == some t)).insertionSort
      (fun a b => updatedAtDescLe a b = true)
  | none =>
    (db.filter (fun r => r.goldExampleType.isSome)).insertionSort
      (fun a b => goldLexLe a b = true)

/-! ### The list operation's ordering -/

inductive SortField
  | score
  | createdAt
  | updatedAt
deriving DecidableEq

inductive SortDirection
  | asc
  | desc
deriving DecidableEq

/-- `SortOptions` as imported from tweetStore.js by server.ts. -/
structure SortOptions where
  orderBy : Option SortField
  orderDir : Option SortDirection

/-- `COALESCE(updatedAt, createdAt)`, the most-recent-activity key of the
default sort in `list` (tweetStore.ts line 179). -/
def activityKey (r : TweetRow) : Nat :=
  r.updatedAt.getD r.createdAt

/-- Ascending comparator for each selectable sort field. -/
def fieldLe : SortField → TweetRow → TweetRow → Bool
  | SortField.score, a, b => decide (a.score ≤ b.score)
  | SortField.createdAt, a, b => decide (a.createdAt ≤ b.createdAt)
  | SortField.updatedAt, a, b => optNatLe a.updatedAt b.updatedAt

/-- Modelled from the spec: the ORDER BY clause of the store's `list`
operation.  The tweetStore.ts revision under src/ only has the default
`ORDER BY datetime(COALESCE(updatedAt, createdAt)) DESC` (line 179) and
takes no sort argument, while server.ts imports `SortOptions` /
`SortField` / `SortDirection` from it and passes a third `sort` argument
to `store.list` — the revision with the sort support is not part of the
sources.  Following the spec: default sort is most-recent-activity
descending, and a caller-selected field is ordered in the caller-selected
direction (descending when no direction is given, matching the default
sort's direction). -/
def sortLe (sort : SortOptions) (a b : TweetRow) : Bool :=
  match sort.orderBy with
  | none => decide (activityKey b ≤ activityKey a)
  | some f =>
    match sort.orderDir.getD SortDirection.desc with
    | SortDirection.asc => fieldLe f a b
    | SortDirection.desc => fieldLe f b a

/-- Modelled from the spec: the ordering stage of `list` — the rows that
survive the WHERE filters, arranged by the ORDER BY clause (pagination
then slices this sequence). -/
def orderRows (rows : List TweetRow) (sort : SortOptions) : List TweetRow :=
  rows.insertionSort (fun a b => sortLe sort a b = true)

/-! ### The config side table -/

/-- Modelled from the spec: the persistent key-value side table backing
`getConfig` / `setConfig`.  The tweetStore.ts revision under src/ predates
these operations, but index.ts and server.ts both call
`store.getConfig(key)` / `store.setConfig(key, value)` with the key
`previousResponseId`.  The table is keyed by its first component; a set
upserts. -/
def ConfigTable : Type := List (String × String)

/-- Modelled from the spec: `setConfig(key, value)` — insert the pair or
overwrite the existing value under the key. -/
def setConfig : ConfigTable → String → String → ConfigTable
  | [], key, value => [(key, value)]
  | p :: rest, key, value =>
    if p.1 == key then (key, value) :: rest else p :: setConfig rest key value

/-- Modelled from the spec: `getConfig(key)` — the stored value under the
key, if any. -/
def getConfig (cfg : ConfigTable) (key : String) : Option String :=
  (cfg.find? (fun p => p.1 == key)).map (fun p => p.2)

/-! ## migrations.ts — the schema-evolution runner

The schema state carries the `schema_migrations` ledger and the `tweets`
table as an ordered column list (name, declared NOT NULL, declared
default — the three properties `PRAGMA table_info` reports and
`isMigrationAlreadyAppliedBySchema` inspects).  `applyMigration`'s catch
of "duplicate column name" / "table already exists" errors is folded into
the per-file semantics; every other SQLite error propagates. -/

structure ColumnInfo where
  name : String
  notnull : Bool
  dflt_value : Option String
deriving DecidableEq

structure MigState where
  ledger : List String
  tweets : Option (List ColumnInfo)
deriving DecidableEq

/-- The column list created by `001_create_tweets_table.sql` (and
recreated as `tweets_new` by `003_make_approved_nullable.sql`).  A
`DEFAULT NULL` clause reports the expression text `NULL`, which is a
present (non-undefined) default. -/
def tweetsColumns : List ColumnInfo :=
  [⟨"id", false, none⟩,
   ⟨"text", true, none⟩,
   ⟨"quote", true, some "''"⟩,
   ⟨"url", true, none⟩,
   ⟨"approved", false, some "NULL"⟩,
   ⟨"score", true, some "0"⟩,
   ⟨"createdAt", true, some "datetime('now')"⟩,
   ⟨"updatedAt", false, some "NULL"⟩,
   ⟨"humanDecision", false, some "NULL"⟩,
   ⟨"goldExampleType", false, some "NULL"⟩,
   ⟨"goldExampleCorrection", false, some "NULL"⟩]

/-- The sorted `.sql` entries of the migrations directory
(`listMigrationFiles`). -/
def migrationFiles : List String :=
  ["001_create_tweets_table.sql",
   "002_add_score_to_tweets.sql",
   "003_make_approved_nullable.sql"]

def hasColumn (cols : List ColumnInfo) (n : String) : Bool :=
  cols.any (fun c => c.name == n)

def findColumn (cols : List ColumnInfo) (n : String) : Option ColumnInfo :=
  cols.find? (fun c => c.name == n)

/-- `PRAGMA table_info(tweets)` as a map: empty when the table is
absent. -/
def tweetColumnMap (s : MigState) : List ColumnInfo :=
  s.tweets.getD []

/-- `isMigrationAlreadyAppliedBySchema` (migrations.ts lines 61-99),
translated check for check. -/
def isMigrationAlreadyAppliedBySchema (s : MigState) (filename : String) : Bool :=
  if jsStartsWith filename "001_" then
    s.tweets.isSome
  else
    let columns := tweetColumnMap s
    if columns.isEmpty then false
    else if jsStartsWith filename "002_" then
      hasColumn columns "score"
    else if jsStartsWith filename "003_" then
      match findColumn columns "approved", findColumn columns "quote" with
      | some approved, some quote => !approved.notnull && quote.dflt_value.isSome
      | _, _ => false
    else if jsStartsWith filename "004_" then
      hasColumn columns "updatedAt"
    else if jsStartsWith filename "005_" then
      hasColumn columns "goldExampleType"
    else if jsStartsWith filename "006_" then
      hasColumn columns "goldExampleCorrection"
    else false

/-- The `score INTEGER NOT NULL DEFAULT 0` column added by 002. -/
def scoreColumn : ColumnInfo := ⟨"score", true, some "0"⟩

/-- Columns the `INSERT INTO tweets_new ... SELECT ... FROM tweets` of 003
reads from the old table. -/
def migration003SourceColumns : List String :=
  ["id", "text", "quote", "url", "approved", "score", "createdAt", "humanDecision"]

/-- `applyMigration` (migrations.ts lines 101-124) specialised to each of
the three SQL files: 001 is CREATE TABLE IF NOT EXISTS; 002 is an ALTER
TABLE whose "duplicate column name" failure is caught and skipped; 003
recreates the table at the full column list.  ALTER/SELECT against a
missing table or column is an uncaught SQLite error. -/
def applyMigrationFile (s : MigState) (filename : String) : Except String MigState :=
  if filename = "001_create_tweets_table.sql" then
    match s.tweets with
    | some _ => Except.ok s
    | none => Except.ok { s with tweets := some tweetsColumns }
  else if filename = "002_add_score_to_tweets.sql" then
    match s.tweets with
    | none => Except.error "no such table: tweets"
    | some cols =>
      if hasColumn cols "score" then Except.ok s
      else Except.ok { s with tweets := some (cols ++ [scoreColumn]) }
  else if filename = "003_make_approved_nullable.sql" then
    match s.tweets with
    | none => Except.error "no such table: tweets"
    | some cols =>
      if migration003SourceColumns.all (hasColumn cols) then
        Except.ok { s with tweets := some tweetsColumns }
      else Except.error "no such column"
  else Except.error "unknown migration file"

/-- `recordMigration` (migrations.ts): `INSERT OR IGNORE` into the
ledger. -/
def recordMigration (s : MigState) (filename : String) : MigState :=
  if s.ledger.contains filename then s else { s with ledger := s.ledger ++ [filename] }

/-- The loop of `applyMigrations` (migrations.ts lines 152-171): skip
files already in the ledger; record files the schema shows as applied;
otherwise run the file, record it and count it. -/
def applyMigrationsAux : List String → MigState → Nat → Except String (MigState × Nat)
  | [], s, count => Except.ok (s, count)
  | f :: rest, s, count =>
    if s.ledger.contains f then applyMigrationsAux rest s count
    else if isMigrationAlreadyAppliedBySchema s f then
      applyMigrationsAux rest (recordMigration s f) count
    else
      match applyMigrationFile s f with
      | Except.error e => Except.error e
      | Except.ok s' => applyMigrationsAux rest (recordMigration s' f) (count + 1)

/-- `applyMigrations` (migrations.ts lines 136-174) over the migrations
directory of the repository, returning the final state and
`appliedCount`.  (`ensureMigrationsTable` is CREATE TABLE IF NOT EXISTS
on the ledger, the identity on this state.) -/
def applyMigrations (s : MigState) : Except String (MigState × Nat) :=
  applyMigrationsAux migrationFiles s 0

/-- The empty store: no ledger entries, no tweets table. -/
def emptyMigState : MigState := ⟨[], none⟩

/-! ## prompt.ts — buildPromptWithExamples -/

/-- `FewShotExample` (prompt.ts): an absent correction is `undefined`. -/
structure FewShotExample where
  tweetText : String
  response : String
  correction : Option String
  type : GoldExampleType
deriving DecidableEq

/-- The tweet-text budget of the appendix:
`slice(0, 200)` plus an ellipsis when longer than 200. -/
def truncateTweet (t : String) : String :=
  t.take 200 ++ (if 200 < t.length then "..." else "")

/-- The decision line shown for a BAD example:
`ex.correction || ex.response` — JavaScript falls through to the raw
response both when the correction is absent and when it is the empty
string. -/
def badShownDecision (ex : FewShotExample) : String :=
  match ex.correction with
  | some c => if c == "" then ex.response else c
  | none => ex.response

/-- One `example ${i + 1}:` block of the calibration appendix. -/
def exampleBlock (i : Nat) (tweetText decision : String) : String :=
  "example " ++ toString (i + 1) ++ ":\ntweet: \"" ++ truncateTweet tweetText ++
    "\"\ndecision: " ++ decision ++ "\n\n"

/-- The indexed loop over BAD examples (prompt.ts lines 162-171). -/
def badBlocksFrom : Nat → List FewShotExample → String
  | _, [] => ""
  | i, ex :: rest => exampleBlock i ex.tweetText (badShownDecision ex) ++ badBlocksFrom (i + 1) rest

/-- The indexed loop over GOOD examples (prompt.ts lines 178-184): the
decision shown is always the raw response. -/
def goodBlocksFrom : Nat → List FewShotExample → String
  | _, [] => ""
  | i, ex :: rest => exampleBlock i ex.tweetText ex.response ++ goodBlocksFrom (i + 1) rest

/-- `buildPromptWithExamples` (prompt.ts lines 141-194), parameterised by
the base instruction constant it closes over (no property depends on that
string's contents).  At most the first five examples of each type are
kept; with none of either kind the base instruction is returned
unchanged. -/
def buildPromptWithExamples (basePrompt : String) (examples : List FewShotExample) : String :=
  let goodExamples := (examples.filter (fun e => e.type == GoldExampleType.GOOD)).take 5
  let badExamples := (examples.filter (fun e => e.type == GoldExampleType.BAD)).take 5
  if goodExamples.isEmpty && badExamples.isEmpty then basePrompt
  else
    basePrompt ++
      "\n\n---\n\nfew-shot examples (calibration reference)\n\nthese are real examples of past decisions. use them to calibrate your bar.\n\n" ++
      (if badExamples.isEmpty then ""
       else "rejected examples (learn what NOT to approve):\n\n" ++ badBlocksFrom 0 badExamples) ++
      (if goodExamples.isEmpty then ""
       else "approved examples (learn what meets the bar):\n\n" ++ goodBlocksFrom 0 goodExamples) ++
      "---\n\n"

/-! ## Concrete fixtures used by witnesses and counterexamples -/

/-- A 429 rate-limit error that is not a quota error. -/
def rateLimitError : APIError :=
  ⟨true, some 429, some "rate_limit_exceeded", some "requests",
    some "Rate limit reached, try again in 2.5s."⟩

/-- A quota-exhaustion error, which the provider also reports with
status 429. -/
def quotaError : APIError :=
  ⟨true, some 429, some "insufficient_quota", some "insufficient_quota",
    some "You exceeded your current quota, please check your plan and billing details."⟩

/-- A non-rate-limit provider error. -/
def serverError : APIError :=
  ⟨true, some 500, none, none, some "internal server error"⟩

/-- Stub operation: rate-limited on attempts 1 and 2, succeeds on
attempt 3. -/
def stubRateLimitTwice : Nat → Except APIError Nat :=
  fun n => if n ≤ 2 then Except.error rateLimitError else Except.ok 42

/-- Stub operation: always fails with the quota error. -/
def stubAlwaysQuota : Nat → Except APIError Nat :=
  fun _ => Except.error quotaError

/-- Stub operation: always rate-limited. -/
def stubAlwaysRateLimit : Nat → Except APIError Nat :=
  fun _ => Except.error rateLimitError

/-- Stub operation: always fails with a non-rate-limit error. -/
def stubServerError : Nat → Except APIError Nat :=
  fun _ => Except.error serverError

/-- A row that already has a model decision (`approved` is set). -/
def judgedRow : TweetRow :=
  ⟨"t1", "old text", "Approved.\nQT: q\nPercentile: 55",
    "https://x.com/carol/status/9", some 1, 55, 1, some 2, none, none, none,
    some "carol"⟩

/-- Re-ingestion of the same tweet id with changed text. -/
def reIngestInput : TweetRawInput :=
  ⟨"t1", "new text", "https://x.com/carol/status/9", none⟩

/-- A BAD gold example updated at time 1. -/
def goldBadRow : TweetRow :=
  ⟨"b1", "bad tweet", "Approved oops", "https://x.com/bob/status/1", some 1,
    40, 1, some 1, none, some GoldExampleType.BAD, some "Rejected: off-topic",
    some "bob"⟩

/-- A GOOD gold example updated later, at time 5. -/
def goldGoodRow : TweetRow :=
  ⟨"g1", "good tweet", "Approved.\nQT: x\nPercentile: 80",
    "https://x.com/alice/status/2", some 1, 80, 2, some 5, none,
    some GoldExampleType.GOOD, none, some "alice"⟩

/-- The state `applyMigrations` reaches from the empty store. -/
def migratedState : MigState :=
  ⟨migrationFiles, some tweetsColumns⟩

/-- A BAD few-shot example carrying a correction. -/
def fixtureBadExample : FewShotExample :=
  ⟨"an off-topic tweet", "Approved oops", some "Rejected: off-topic.",
    GoldExampleType.BAD⟩

/-- A GOOD few-shot example (no correction). -/
def fixtureGoodExample : FewShotExample :=
  ⟨"a sharp kaspa tweet", "Approved.\nQT: nice angle\nPercentile: 70", none,
    GoldExampleType.GOOD⟩

/-! # Theorems -/

/-! ## Shared helper lemmas -/

theorem toList_append (a b : String) : (a ++ b).toList = a.toList ++ b.toList :=
  String.data_append a b

theorem optNatLe_trans {a b c : Option Nat} (h1 : optNatLe a b = true)
    (h2 : optNatLe b c = true) : optNatLe a c = true := by
  cases a <;> cases b <;> cases c <;> simp_all [optNatLe]
  omega

theorem optNatLe_total (a b : Option Nat) : (optNatLe a b || optNatLe b a) = true := by
  cases a <;> cases b <;> simp [optNatLe]
  omega

/-! ## C1 — askTweetDecision response-format contract -/

/-- C1: askTweetDecision returns a non-error result exactly when the
trimmed output text is non-empty and starts (case-sensitively) with
`Approved` or `Rejected`, and, when it starts with `Approved`, contains a
`Percentile: <integer>` field whose parsed value is at most 100; the
returned score equals that value for approvals and 0 for rejections, and
every error carries the trimmed raw output text in its `rawResponse`
field. -/
theorem C1_askTweetDecision_contract (o : Option String) (rid : String) :
    (∀ r, askTweetDecision o rid = Except.ok r →
      r.quote = quoteOfOutput o ∧ r.responseId = rid ∧ r.quote ≠ "" ∧
      (jsStartsWith r.quote "Approved" = true ∨ jsStartsWith r.quote "Rejected" = true) ∧
      r.approved = jsStartsWith r.quote "Approved" ∧
      (r.approved = true → findPercentile r.quote = some r.score ∧ r.score ≤ 100) ∧
      (r.approved = false → r.score = 0)) ∧
    (∀ e, askTweetDecision o rid = Except.error e → e.rawResponse = quoteOfOutput o) ∧
    ((quoteOfOutput o ≠ "" ∧
        (jsStartsWith (quoteOfOutput o) "Approved" = true ∨
          jsStartsWith (quoteOfOutput o) "Rejected" = true) ∧
        (jsStartsWith (quoteOfOutput o) "Approved" = true →
          ∃ n, findPercentile (quoteOfOutput o) = some n ∧ n ≤ 100)) →
      ∃ r, askTweetDecision o rid = Except.ok r) ∧
    (¬(quoteOfOutput o ≠ "" ∧
        (jsStartsWith (quoteOfOutput o) "Approved" = true ∨
          jsStartsWith (quoteOfOutput o) "Rejected" = true) ∧
        (jsStartsWith (quoteOfOutput o) "Approved" = true →
          ∃ n, findPercentile (quoteOfOutput o) = some n ∧ n ≤ 100)) →
      ∃ e, askTweetDecision o rid = Except.error e ∧ e.rawResponse = quoteOfOutput o) := by
  by_cases hq : quoteOfOutput o = ""
  · have hres : askTweetDecision o rid =
        Except.error ⟨"Empty response from model", quoteOfOutput o⟩ := by
      simp [askTweetDecision, hq]
    refine ⟨?_, ?_, ?_, ?_⟩
    · intro r hr
      rw [hres] at hr
      exact absurd hr (by simp)
    · intro e he
      rw [hres] at he
      simp only [Except.error.injEq] at he
      rw [← he]
    · rintro ⟨h1, -, -⟩
      exact absurd hq h1
    · intro _
      exact ⟨_, hres, rfl⟩
  · by_cases hA : jsStartsWith (quoteOfOutput o) "Approved" = true
    · cases hP : findPercentile (quoteOfOutput o) with
      | none =>
        have hres : askTweetDecision o rid =
            Except.error ⟨"Approved response missing Percentile field: \"" ++
              (quoteOfOutput o).take 100 ++ "...\"", quoteOfOutput o⟩ := by
          simp [askTweetDecision, hq, hA, hP]
        refine ⟨?_, ?_, ?_, ?_⟩
        · intro r hr
          rw [hres] at hr
          exact absurd hr (by simp)
        · intro e he
          rw [hres] at he
          simp only [Except.error.injEq] at he
          rw [← he]
        · rintro ⟨-, -, h3⟩
          obtain ⟨n, hn, -⟩ := h3 hA
          exact absurd hn (by simp)
        · intro _
          exact ⟨_, hres, rfl⟩
      | some n =>
        by_cases h100 : 100 < n
        · have hres : askTweetDecision o rid =
              Except.error ⟨"Percentile must be 0-100, got: " ++ toString n,
                quoteOfOutput o⟩ := by
            simp [askTweetDecision, hq, hA, hP, h100]
          refine ⟨?_, ?_, ?_, ?_⟩
          · intro r hr
            rw [hres] at hr
            exact absurd hr (by simp)
          · intro e he
            rw [hres] at he
            simp only [Except.error.injEq] at he
            rw [← he]
          · rintro ⟨-, -, h3⟩
            obtain ⟨m, hm, hm100⟩ := h3 hA
            obtain rfl : n = m := Option.some.inj hm
            omega
          · intro _
            exact ⟨_, hres, rfl⟩
        · have hres : askTweetDecision o rid =
              Except.ok ⟨quoteOfOutput o, true, n, rid⟩ := by
            simp [askTweetDecision, hq, hA, hP, h100]
          refine ⟨?_, ?_, ?_, ?_⟩
          · intro r hr
            rw [hres] at hr
            simp only [Except.ok.injEq] at hr
            subst hr
            refine ⟨rfl, rfl, hq, Or.inl hA, hA.symm, ?_, ?_⟩
            · intro _
              exact ⟨hP, by show n ≤ 100; omega⟩
            · intro hfc
              exact absurd hfc (by simp)
          · intro e he
            rw [hres] at he
            exact absurd he (by simp)
          · intro _
            exact ⟨_, hres⟩
          · intro hng
            exact absurd ⟨hq, Or.inl hA, fun _ => ⟨n, by simp [hP], by omega⟩⟩ hng
    · by_cases hR : jsStartsWith (quoteOfOutput o) "Rejected" = true
      · have hA' : jsStartsWith (quoteOfOutput o) "Approved" = false :=
          Bool.eq_false_iff.mpr hA
        have hres : askTweetDecision o rid =
            Except.ok ⟨quoteOfOutput o, false, 0, rid⟩ := by
          simp [askTweetDecision, hq, hA', hR]
        refine ⟨?_, ?_, ?_, ?_⟩
        · intro r hr
          rw [hres] at hr
          simp only [Except.ok.injEq] at hr
          subst hr
          refine ⟨rfl, rfl, hq, Or.inr hR, hA'.symm, ?_, fun _ => rfl⟩
          intro hfc
          exact absurd hfc (by simp)
        · intro e he
          rw [hres] at he
          exact absurd he (by simp)
        · intro _
          exact ⟨_, hres⟩
        · intro hng
          refine absurd ⟨hq, Or.inr hR, ?_⟩ hng
          intro hA2
          exact absurd hA2 hA
      · have hA' : jsStartsWith (quoteOfOutput o) "Approved" = false :=
          Bool.eq_false_iff.mpr hA
        have hR' : jsStartsWith (quoteOfOutput o) "Rejected" = false :=
          Bool.eq_false_iff.mpr hR
        have hres : askTweetDecision o rid =
            Except.error ⟨"Response must start with \"Approved\" or \"Rejected\", got: \"" ++
              (quoteOfOutput o).take 50 ++ "...\"", quoteOfOutput o⟩ := by
          simp [askTweetDecision, hq, hA', hR']
        refine ⟨?_, ?_, ?_, ?_⟩
        · intro r hr
          rw [hres] at hr
          exact absurd hr (by simp)
        · intro e he
          rw [hres] at he
          simp only [Except.error.injEq] at he
          rw [← he]
        · rintro ⟨-, h2, -⟩
          cases h2 with
          | inl h => exact absurd h hA
          | inr h => exact absurd h hR
        · intro _
          exact ⟨_, hres, rfl⟩

/-- Witness for C1: a well-formed approved response parses successfully. -/
theorem C1_askTweetDecision_contract_witness :
    ∃ r, askTweetDecision (some " Approved.\nQT: x\nPercentile: 97 ") "resp_1" =
      Except.ok r :=
  (C1_askTweetDecision_contract (some " Approved.\nQT: x\nPercentile: 97 ") "resp_1").2.2.1
    ⟨by decide, Or.inl (by decide), fun _ => ⟨97, by decide, by decide⟩⟩

/-! ## C2 — the retry policy -/

theorem OpenaiRetry.withRetryAux_attempts_bound {T : Type} (op : Nat → Except APIError T) :
    ∀ rest attempt backoffs,
      (OpenaiRetry.withRetryAux op rest attempt backoffs).attempts ≤ attempt + rest := by
  intro rest
  induction rest with
  | zero =>
    intro attempt backoffs
    unfold OpenaiRetry.withRetryAux
    cases op attempt <;> simp
  | succ r ih =>
    intro attempt backoffs
    unfold OpenaiRetry.withRetryAux
    cases op attempt with
    | ok v => simp
    | error e =>
      by_cases h1 : OpenaiRetry.isRateLimitError e
      · by_cases h2 : OpenaiRetry.isQuotaOrBillingError e
        · simp [h1, h2]
        · have := ih (attempt + 1) (backoffs + 1)
          simp only [h1, h2]
          simp only [Bool.not_true, Bool.false_eq_true, if_false,
            Bool.eq_false_iff.mpr h2, if_true]
          omega
      · simp [Bool.eq_false_iff.mpr h1]

theorem GptClient.withRetryAux_attempts_cap {T : Type} (op : Nat → Except APIError T) :
    ∀ rest attempt backoffs,
      (GptClient.withRetryAux op rest attempt backoffs).attempts ≤ attempt + rest := by
  intro rest
  induction rest with
  | zero =>
    intro attempt backoffs
    unfold GptClient.withRetryAux
    cases op attempt <;> simp
  | succ r ih =>
    intro attempt backoffs
    unfold GptClient.withRetryAux
    cases op attempt with
    | ok v => simp
    | error e =>
      by_cases h1 : GptClient.isRateLimitError e
      · have := ih (attempt + 1) (backoffs + 1)
        simp only [h1, Bool.not_true, Bool.false_eq_true, if_false]
        omega
      · simp [Bool.eq_false_iff.mpr h1]

/-- C2: behaviour of the retry policy on the spec's stub scenarios.  The
exported `withRetry` of openaiRetry.ts behaves exactly as claimed: a
rate-limit error twice then success yields the success after exactly 2
backoff delays and 3 attempts; a quota-exhaustion error (which the
provider also flags as a 429) propagates on attempt 1 with no delay; a
non-rate-limit error propagates on attempt 1 with no delay; three
rate-limit failures re-raise the last error after 2 delays; and no run
ever exceeds 3 attempts.  The local `withRetry` copy in gptClient.ts —
the one `askTweetDecision` actually calls — lacks the quota check and
retries the same quota error through all 3 attempts with 2 backoff
delays. -/
theorem C2_withRetry_policy :
    (OpenaiRetry.withRetry stubRateLimitTwice).result = Except.ok 42 ∧
    (OpenaiRetry.withRetry stubRateLimitTwice).attempts = 3 ∧
    (OpenaiRetry.withRetry stubRateLimitTwice).backoffs = 2 ∧
    (OpenaiRetry.withRetry stubAlwaysQuota).result = Except.error quotaError ∧
    (OpenaiRetry.withRetry stubAlwaysQuota).attempts = 1 ∧
    (OpenaiRetry.withRetry stubAlwaysQuota).backoffs = 0 ∧
    (OpenaiRetry.withRetry stubServerError).result = Except.error serverError ∧
    (OpenaiRetry.withRetry stubServerError).attempts = 1 ∧
    (OpenaiRetry.withRetry stubServerError).backoffs = 0 ∧
    (OpenaiRetry.withRetry stubAlwaysRateLimit).result = Except.error rateLimitError ∧
    (OpenaiRetry.withRetry stubAlwaysRateLimit).attempts = 3 ∧
    (OpenaiRetry.withRetry stubAlwaysRateLimit).backoffs = 2 ∧
    (∀ (T : Type) (op : Nat → Except APIError T),
      (OpenaiRetry.withRetry op).attempts ≤ OpenaiRetry.MAX_RETRIES ∧
      (GptClient.withRetry op).attempts ≤ GptClient.MAX_RETRIES) ∧
    (GptClient.withRetry stubAlwaysQuota).result = Except.error quotaError ∧
    (GptClient.withRetry stubAlwaysQuota).attempts = 3 ∧
    (GptClient.withRetry stubAlwaysQuota).backoffs = 2 := by
  refine ⟨by rfl, by rfl, by rfl, by rfl, by rfl, by rfl, by rfl, by rfl, by rfl,
    by rfl, by rfl, by rfl, ?_, by rfl, by rfl, by rfl⟩
  intro T op
  constructor
  · exact OpenaiRetry.withRetryAux_attempts_bound op _ 1 0
  · exact GptClient.withRetryAux_attempts_cap op _ 1 0

/-! ## C3 — saveRaw leaves judgment fields untouched -/

/-- C3: re-ingesting an id already present updates only `text`, `url`
(and the author), leaving `quote`, `approved`, `score`, `humanDecision`,
the gold-example fields, `createdAt` and `updatedAt` of every row
unchanged and other rows intact; a fresh id is appended with the schema
defaults and `createdAt` set to the current clock. -/
theorem C3_saveRaw_frame (db : List TweetRow) (tweet : TweetRawInput) (now : Nat) :
    ((∃ x ∈ db, x.id = tweet.id) →
      ∀ (i : Nat) (r : TweetRow), db[i]? = some r →
        ∃ r', (saveRaw db tweet now)[i]? = some r' ∧
          r'.id = r.id ∧ r'.quote = r.quote ∧ r'.approved = r.approved ∧
          r'.score = r.score ∧ r'.humanDecision = r.humanDecision ∧
          r'.goldExampleType = r.goldExampleType ∧
          r'.goldExampleCorrection = r.goldExampleCorrection ∧
          r'.createdAt = r.createdAt ∧ r'.updatedAt = r.updatedAt ∧
          (r.id = tweet.id → r'.text = tweet.text ∧ r'.url = tweet.url) ∧
          (r.id ≠ tweet.id → r' = r)) ∧
    ((∀ x ∈ db, x.id ≠ tweet.id) →
      (∀ (j : Nat) (x : TweetRow), db[j]? = some x → (saveRaw db tweet now)[j]? = some x) ∧
      ∃ rNew, (saveRaw db tweet now)[db.length]? = some rNew ∧
        rNew.id = tweet.id ∧ rNew.createdAt = now ∧ rNew.text = tweet.text ∧
        rNew.url = tweet.url ∧ rNew.quote = "" ∧ rNew.approved = none ∧
        rNew.score = 0 ∧ rNew.humanDecision = none ∧
        rNew.goldExampleType = none ∧ rNew.goldExampleCorrection = none ∧
        rNew.updatedAt = none) := by
  constructor
  · rintro ⟨x, hx, hxid⟩ i r hir
    have hany : db.any (fun q => q.id == tweet.id) = true :=
      List.any_eq_true.mpr ⟨x, hx, beq_iff_eq.mpr hxid⟩
    have hmap : saveRaw db tweet now =
        db.map (fun q =>
          if q.id == tweet.id then
            { q with text := tweet.text, url := tweet.url,
                     authorUsername := coalesce (resolvedAuthor tweet) q.authorUsername }
          else q) := by
      simp only [saveRaw, hany, if_true]
    rw [hmap, List.getElem?_map, hir, Option.map_some']
    by_cases hid : r.id = tweet.id
    · have hbeq : (r.id == tweet.id) = true := beq_iff_eq.mpr hid
      simp only [hbeq, if_true]
      exact ⟨_, rfl, rfl, rfl, rfl, rfl, rfl, rfl, rfl, rfl, rfl,
        fun _ => ⟨rfl, rfl⟩, fun h => absurd hid h⟩
    · have hbeq : (r.id == tweet.id) = false := by
        simp [beq_iff_eq]
        exact hid
      simp only [hbeq, Bool.false_eq_true, if_false]
      exact ⟨r, rfl, rfl, rfl, rfl, rfl, rfl, rfl, rfl, rfl, rfl,
        fun h => absurd h hid, fun _ => rfl⟩
  · intro hall
    have hany : db.any (fun q => q.id == tweet.id) = false :=
      List.any_eq_false.mpr (fun x hx => by
        simpa [beq_iff_eq] using hall x hx)
    have happ : saveRaw db tweet now =
        db ++ [{ id := tweet.id, text := tweet.text, quote := "", url := tweet.url,
                 approved := none, score := 0, createdAt := now, updatedAt := none,
                 humanDecision := none, goldExampleType := none,
                 goldExampleCorrection := none,
                 authorUsername := resolvedAuthor tweet }] := by
      simp only [saveRaw, hany, Bool.false_eq_true, if_false]
    constructor
    · intro j x hjx
      have hj : j < db.length := (List.getElem?_eq_some.mp hjx).1
      rw [happ, List.getElem?_append, if_pos hj, hjx]
    · refine ⟨⟨tweet.id, tweet.text, "", tweet.url, none, 0, now, none, none, none,
          none, resolvedAuthor tweet⟩,
        ?_, rfl, rfl, rfl, rfl, rfl, rfl, rfl, rfl, rfl, rfl, rfl⟩
      rw [happ, List.getElem?_append, if_neg (by omega)]
      simp

/-- Witness for C3: the frame theorem applied to a store holding one
already-judged row whose id is re-ingested. -/
theorem C3_saveRaw_frame_witness :
    ∃ r', (saveRaw [judgedRow] reIngestInput 9)[0]? = some r' ∧
      r'.approved = judgedRow.approved ∧ r'.createdAt = judgedRow.createdAt ∧
      r'.text = reIngestInput.text := by
  obtain ⟨r', h1, -, -, happ, -, -, -, -, hcr, -, himp, -⟩ :=
    (C3_saveRaw_frame [judgedRow] reIngestInput 9).1
      ⟨judgedRow, by simp, by decide⟩ 0 judgedRow (by rfl)
  obtain ⟨htext, -⟩ := himp (by decide)
  exact ⟨r', h1, happ, hcr, htext⟩

/-! ## C9 — does judging freeze the ingested text? -/

/-- C9 counterexample: a judged row (`approved` is set) still gets its
`text` overwritten by the raw upsert — the claim's "not after judging" is
false on the code, whose `ON CONFLICT` clause updates `text`
unconditionally. -/
theorem C9_counterexample_text_overwritten :
    judgedRow.approved ≠ none ∧
    (saveRaw [judgedRow] reIngestInput 9).map TweetRow.text = ["new text"] ∧
    judgedRow.text = "old text" := by
  decide

/-- C9 (amended): re-ingesting an existing id overwrites `text` and `url`
unconditionally — whether or not the row has been judged — while leaving
the judgment fields unchanged. -/
theorem C9_amended_saveRaw_always_overwrites_text (db : List TweetRow)
    (tweet : TweetRawInput) (now : Nat) (i : Nat) (r : TweetRow)
    (hir : db[i]? = some r) (hid : r.id = tweet.id) :
    ∃ r', (saveRaw db tweet now)[i]? = some r' ∧ r'.text = tweet.text ∧
      r'.url = tweet.url ∧ r'.approved = r.approved ∧ r'.score = r.score := by
  have hmem : r ∈ db := by
    obtain ⟨hlt, hEq⟩ := List.getElem?_eq_some.mp hir
    exact hEq ▸ List.getElem_mem hlt
  have hany : db.any (fun q => q.id == tweet.id) = true :=
    List.any_eq_true.mpr ⟨r, hmem, beq_iff_eq.mpr hid⟩
  have hmap : saveRaw db tweet now =
      db.map (fun q =>
        if q.id == tweet.id then
          { q with text := tweet.text, url := tweet.url,
                   authorUsername := coalesce (resolvedAuthor tweet) q.authorUsername }
        else q) := by
    simp only [saveRaw, hany, if_true]
  rw [hmap, List.getElem?_map, hir, Option.map_some']
  simp only [beq_iff_eq.mpr hid, if_true]
  exact ⟨_, rfl, rfl, rfl, rfl, rfl⟩

/-- Witness for the amended C9 theorem at a judged concrete row. -/
theorem C9_amended_witness :
    ∃ r', (saveRaw [judgedRow] reIngestInput 3)[0]? = some r' ∧
      r'.text = "new text" := by
  obtain ⟨r', h1, h2, -, -, -⟩ :=
    C9_amended_saveRaw_always_overwrites_text [judgedRow] reIngestInput 3 0 judgedRow
      (by rfl) (by decide)
  exact ⟨r', h1, h2.trans (by decide)⟩

/-! ## C10 — updates to a missing id are silent no-ops -/

/-- C10: `updateHumanDecision` and `setGoldExample` with an id not in the
store return normally and leave the store exactly as it was — no row is
created and no existing row (its `updatedAt` included) changes. -/
theorem C10_missing_id_noop (db : List TweetRow) (tid : String)
    (decision : Option HumanDecision) (type : Option GoldExampleType)
    (correction : Option String) (now : Nat)
    (h : ∀ r ∈ db, r.id ≠ tid) :
    updateHumanDecision db tid decision now = db ∧
    setGoldExample db tid type correction now = db := by
  constructor
  · unfold updateHumanDecision
    refine Eq.trans (List.map_congr_left ?_) (List.map_id db)
    intro r hr
    rw [if_neg (by simpa [beq_iff_eq] using h r hr)]
    rfl
  · unfold setGoldExample
    refine Eq.trans (List.map_congr_left ?_) (List.map_id db)
    intro r hr
    rw [if_neg (by simpa [beq_iff_eq] using h r hr)]
    rfl

/-- Witness for C10 at a concrete one-row store and an absent id. -/
theorem C10_missing_id_noop_witness :
    updateHumanDecision [judgedRow] "zzz" (some HumanDecision.APPROVED) 7 = [judgedRow] ∧
    setGoldExample [judgedRow] "zzz" (some GoldExampleType.GOOD) none 7 = [judgedRow] :=
  C10_missing_id_noop [judgedRow] "zzz" (some HumanDecision.APPROVED)
    (some GoldExampleType.GOOD) none 7 (by decide)

/-! ## C8 — order of getGoldExamples -/

theorem bor_elim {a b : Bool} (h : (a || b) = true) : a = true ∨ b = true := by
  cases a
  · exact Or.inr (by simpa using h)
  · exact Or.inl rfl

theorem updatedAtDescLe_trans {a b c : TweetRow} (h1 : updatedAtDescLe a b = true)
    (h2 : updatedAtDescLe b c = true) : updatedAtDescLe a c = true :=
  optNatLe_trans h2 h1

theorem updatedAtDescLe_total (a b : TweetRow) :
    (updatedAtDescLe a b || updatedAtDescLe b a) = true :=
  optNatLe_total b.updatedAt a.updatedAt

theorem goldLexLe_iff {a b : TweetRow} :
    goldLexLe a b = true ↔
      (goldTypeRank a.goldExampleType < goldTypeRank b.goldExampleType ∨
        (goldTypeRank a.goldExampleType = goldTypeRank b.goldExampleType ∧
          optNatLe b.updatedAt a.updatedAt = true)) := by
  unfold goldLexLe
  simp [Bool.or_eq_true, Bool.and_eq_true, decide_eq_true_eq, beq_iff_eq]

theorem goldLexLe_trans {a b c : TweetRow} (h1 : goldLexLe a b = true)
    (h2 : goldLexLe b c = true) : goldLexLe a c = true := by
  rw [goldLexLe_iff] at h1 h2 ⊢
  rcases h1 with h1 | ⟨h1e, h1o⟩ <;> rcases h2 with h2 | ⟨h2e, h2o⟩
  · exact Or.inl (by omega)
  · exact Or.inl (by omega)
  · exact Or.inl (by omega)
  · exact Or.inr ⟨by omega, optNatLe_trans h2o h1o⟩

theorem goldLexLe_total (a b : TweetRow) : (goldLexLe a b || goldLexLe b a) = true := by
  rw [Bool.or_eq_true, goldLexLe_iff, goldLexLe_iff]
  rcases Nat.lt_trichotomy (goldTypeRank a.goldExampleType)
    (goldTypeRank b.goldExampleType) with h | h | h
  · exact Or.inl (Or.inl h)
  · rcases bor_elim (optNatLe_total b.updatedAt a.updatedAt) with ho | ho
    · exact Or.inl (Or.inr ⟨h, ho⟩)
    · exact Or.inr (Or.inr ⟨h.symm, ho⟩)
  · exact Or.inr (Or.inl h)

/-- C8 counterexample: without a type filter the returned sequence is not
globally descending by `updatedAt` — a BAD example updated at time 1
precedes a GOOD example updated at time 5, because the SQL orders by
`goldExampleType` first. -/
theorem C8_counterexample_not_globally_newest_first :
    ¬ ((getGoldExamples [goldGoodRow, goldBadRow] none).Pairwise
        (fun a b => optNatLe b.updatedAt a.updatedAt = true)) := by
  decide

/-- C8 (amended): with a type filter, `getGoldExamples` returns the
matching rows newest-updated first; without a filter it returns all gold
rows ordered by gold type first (BAD before GOOD, the SQL text order on
the stored column) and newest-updated first only within each type. -/
theorem C8_amended_getGoldExamples_order (db : List TweetRow) :
    (∀ t : GoldExampleType,
      (getGoldExamples db (some t)).Perm
        (db.filter (fun r => r.goldExampleType == some t)) ∧
      (getGoldExamples db (some t)).Pairwise
        (fun a b => optNatLe b.updatedAt a.updatedAt = true)) ∧
    ((getGoldExamples db none).Perm (db.filter (fun r => r.goldExampleType.isSome)) ∧
      (getGoldExamples db none).Pairwise
        (fun a b =>
          goldTypeRank a.goldExampleType < goldTypeRank b.goldExampleType ∨
          (goldTypeRank a.goldExampleType = goldTypeRank b.goldExampleType ∧
            optNatLe b.updatedAt a.updatedAt = true))) := by
  refine ⟨fun t => ⟨List.perm_insertionSort _ _, ?_⟩,
    List.perm_insertionSort _ _, ?_⟩
  · letI : IsTotal TweetRow (fun a b => optNatLe b.updatedAt a.updatedAt = true) :=
      ⟨fun a b => bor_elim (updatedAtDescLe_total a b)⟩
    letI : IsTrans TweetRow (fun a b => optNatLe b.updatedAt a.updatedAt = true) :=
      ⟨fun _ _ _ h1 h2 => updatedAtDescLe_trans h1 h2⟩
    exact List.sorted_insertionSort _ _
  · letI : IsTotal TweetRow (fun a b => goldLexLe a b = true) :=
      ⟨fun a b => bor_elim (goldLexLe_total a b)⟩
    letI : IsTrans TweetRow (fun a b => goldLexLe a b = true) :=
      ⟨fun _ _ _ h1 h2 => goldLexLe_trans h1 h2⟩
    exact List.Pairwise.imp (fun h => goldLexLe_iff.mp h)
      (List.sorted_insertionSort _ _)

/-! ## C4 — ordering of the list operation -/

theorem fieldLe_trans (f : SortField) {a b c : TweetRow}
    (h1 : fieldLe f a b = true) (h2 : fieldLe f b c = true) :
    fieldLe f a c = true := by
  cases f with
  | score =>
    simp only [fieldLe, decide_eq_true_eq] at h1 h2 ⊢
    omega
  | createdAt =>
    simp only [fieldLe, decide_eq_true_eq] at h1 h2 ⊢
    omega
  | updatedAt =>
    simp only [fieldLe] at h1 h2 ⊢
    exact optNatLe_trans h1 h2

theorem fieldLe_total (f : SortField) (a b : TweetRow) :
    (fieldLe f a b || fieldLe f b a) = true := by
  cases f with
  | score =>
    simp only [fieldLe, Bool.or_eq_true, decide_eq_true_eq]
    omega
  | createdAt =>
    simp only [fieldLe, Bool.or_eq_true, decide_eq_true_eq]
    omega
  | updatedAt =>
    simp only [fieldLe]
    exact optNatLe_total a.updatedAt b.updatedAt

/-- C4: the ordering stage of the store's `list` operation sorts by
most-recent-activity (`updatedAt` if present else `createdAt`) descending
by default, and — per the spec-modelled sort options — orders by the
caller-selected field (`score`, `createdAt` or `updatedAt`) in the
caller-selected direction, the output always being a permutation of the
filtered rows. -/
theorem C4_list_sort_order (rows : List TweetRow) :
    ((orderRows rows ⟨none, none⟩).Perm rows ∧
      (orderRows rows ⟨none, none⟩).Pairwise
        (fun a b => activityKey b ≤ activityKey a)) ∧
    (∀ f : SortField,
      ((orderRows rows ⟨some f, some SortDirection.asc⟩).Perm rows ∧
        (orderRows rows ⟨some f, some SortDirection.asc⟩).Pairwise
          (fun a b => fieldLe f a b = true)) ∧
      ((orderRows rows ⟨some f, some SortDirection.desc⟩).Perm rows ∧
        (orderRows rows ⟨some f, some SortDirection.desc⟩).Pairwise
          (fun a b => fieldLe f b a = true))) := by
  constructor
  · refine ⟨List.perm_insertionSort _ _, ?_⟩
    letI : IsTotal TweetRow (fun a b => sortLe ⟨none, none⟩ a b = true) :=
      ⟨fun a b => by
        simp only [sortLe, decide_eq_true_eq]
        omega⟩
    letI : IsTrans TweetRow (fun a b => sortLe ⟨none, none⟩ a b = true) :=
      ⟨fun a b c h1 h2 => by
        simp only [sortLe, decide_eq_true_eq] at h1 h2 ⊢
        omega⟩
    exact List.Pairwise.imp (fun h => by simpa [sortLe, decide_eq_true_eq] using h)
      (List.sorted_insertionSort (fun a b => sortLe ⟨none, none⟩ a b = true) rows)
  · intro f
    constructor
    · refine ⟨List.perm_insertionSort _ _, ?_⟩
      letI : IsTotal TweetRow
          (fun a b => sortLe ⟨some f, some SortDirection.asc⟩ a b = true) :=
        ⟨fun a b => bor_elim (fieldLe_total f a b)⟩
      letI : IsTrans TweetRow
          (fun a b => sortLe ⟨some f, some SortDirection.asc⟩ a b = true) :=
        ⟨fun _ _ _ h1 h2 => fieldLe_trans f h1 h2⟩
      exact List.Pairwise.imp (fun h => h)
        (List.sorted_insertionSort
          (fun a b => sortLe ⟨some f, some SortDirection.asc⟩ a b = true) rows)
    · refine ⟨List.perm_insertionSort _ _, ?_⟩
      letI : IsTotal TweetRow
          (fun a b => sortLe ⟨some f, some SortDirection.desc⟩ a b = true) :=
        ⟨fun a b => bor_elim (fieldLe_total f b a)⟩
      letI : IsTrans TweetRow
          (fun a b => sortLe ⟨some f, some SortDirection.desc⟩ a b = true) :=
        ⟨fun _ _ _ h1 h2 => fieldLe_trans f h2 h1⟩
      exact List.Pairwise.imp (fun h => h)
        (List.sorted_insertionSort
          (fun a b => sortLe ⟨some f, some SortDirection.desc⟩ a b = true) rows)

/-! ## C5 — the persistent config side table -/

theorem getConfig_setConfig_same (cfg : ConfigTable) (k v : String) :
    getConfig (setConfig cfg k v) k = some v := by
  induction cfg with
  | nil => simp [setConfig, getConfig]
  | cons p rest ih =>
    by_cases h : (p.1 == k) = true
    · simp [setConfig, h, getConfig]
    · have h' : (p.1 == k) = false := Bool.eq_false_iff.mpr h
      simp only [setConfig, h', Bool.false_eq_true, if_false]
      simp only [getConfig, List.find?_cons, h'] at ih ⊢
      exact ih

theorem getConfig_setConfig_other (cfg : ConfigTable) (k v k' : String)
    (h : k' ≠ k) : getConfig (setConfig cfg k v) k' = getConfig cfg k' := by
  have hkk' : (k == k') = false := by
    rcases hb : (k == k') with - | -
    · rfl
    · exact absurd (beq_iff_eq.mp hb).symm h
  induction cfg with
  | nil => simp [setConfig, getConfig, hkk']
  | cons p rest ih =>
    by_cases hp : (p.1 == k) = true
    · have hpk : p.1 = k := beq_iff_eq.mp hp
      simp only [setConfig, hp, if_true]
      simp only [getConfig, List.find?_cons, hkk', hpk]
    · have hp' : (p.1 == k) = false := Bool.eq_false_iff.mpr hp
      simp only [setConfig, hp', Bool.false_eq_true, if_false]
      rcases hq : (p.1 == k') with - | -
      · simp only [getConfig, List.find?_cons, hq] at ih ⊢
        exact ih
      · simp only [getConfig, List.find?_cons, hq]

/-- C5: the spec-modelled persistent key-value config table — a value
written with `setConfig` is returned by `getConfig` on the persisted
state (hence across process runs), other keys are untouched, and in
particular the conversation handle round-trips under the key
`previousResponseId`. -/
theorem C5_config_persistence (cfg : ConfigTable) (k v : String) :
    getConfig (setConfig cfg k v) k = some v ∧
    (∀ k', k' ≠ k → getConfig (setConfig cfg k v) k' = getConfig cfg k') ∧
    getConfig (setConfig cfg "previousResponseId" v) "previousResponseId" = some v :=
  ⟨getConfig_setConfig_same cfg k v,
   fun k' h => getConfig_setConfig_other cfg k v k' h,
   getConfig_setConfig_same cfg "previousResponseId" v⟩

/-- Witness for C5 at a concrete table, key and value. -/
theorem C5_config_persistence_witness :
    getConfig (setConfig [("other", "x")] "previousResponseId" "resp_42")
      "previousResponseId" = some "resp_42" ∧
    getConfig (setConfig [("other", "x")] "previousResponseId" "resp_42") "other" =
      some "x" := by
  have h := C5_config_persistence [("other", "x")] "previousResponseId" "resp_42"
  exact ⟨h.1, (h.2.1 "other" (by decide)).trans (by decide)⟩

/-! ## C6 — idempotence of applyMigrations -/

theorem isApplied_of_latest {s : MigState} (hs : s.tweets = some tweetsColumns) :
    isMigrationAlreadyAppliedBySchema s "001_create_tweets_table.sql" = true ∧
    isMigrationAlreadyAppliedBySchema s "002_add_score_to_tweets.sql" = true ∧
    isMigrationAlreadyAppliedBySchema s "003_make_approved_nullable.sql" = true := by
  obtain ⟨led, tw⟩ := s
  simp only at hs
  subst hs
  refine ⟨rfl, rfl, rfl⟩

theorem applyMigrationsAux_skip {s : MigState} {f : String} (rest : List String)
    (count : Nat) (h : isMigrationAlreadyAppliedBySchema s f = true) :
    ∃ s', applyMigrationsAux (f :: rest) s count = applyMigrationsAux rest s' count ∧
      s'.tweets = s.tweets := by
  by_cases hc : f ∈ s.ledger
  · refine ⟨s, ?_, rfl⟩
    conv_lhs => unfold applyMigrationsAux
    simp [hc]
  · refine ⟨recordMigration s f, ?_, by unfold recordMigration; split <;> rfl⟩
    conv_lhs => unfold applyMigrationsAux
    simp [hc, h]

/-- C6: the migration runner is idempotent — on a store whose tweets
table already has the latest column layout it applies zero migrations and
leaves the schema untouched (only ledger rows are written), and running
it on an empty store once produces that layout with one applied
migration, after which a second run returns the same state with zero
applied migrations. -/
theorem C6_applyMigrations_idempotent :
    (∀ s : MigState, s.tweets = some tweetsColumns →
      ∃ s', applyMigrations s = Except.ok (s', 0) ∧ s'.tweets = s.tweets) ∧
    (applyMigrations emptyMigState = Except.ok (migratedState, 1) ∧
      migratedState.tweets = some tweetsColumns ∧
      applyMigrations migratedState = Except.ok (migratedState, 0)) := by
  constructor
  · intro s hs
    obtain ⟨h1, h2, h3⟩ := isApplied_of_latest hs
    obtain ⟨s1, e1, t1⟩ := applyMigrationsAux_skip
      ["002_add_score_to_tweets.sql", "003_make_approved_nullable.sql"] 0 h1
    obtain ⟨h1', h2', h3'⟩ := isApplied_of_latest (t1.trans hs)
    obtain ⟨s2, e2, t2⟩ := applyMigrationsAux_skip
      ["003_make_approved_nullable.sql"] 0 h2'
    obtain ⟨h1'', h2'', h3''⟩ := isApplied_of_latest (t2.trans (t1.trans hs))
    obtain ⟨s3, e3, t3⟩ := applyMigrationsAux_skip [] 0 h3''
    refine ⟨s3, ?_, t3.trans (t2.trans t1)⟩
    calc applyMigrations s
        = applyMigrationsAux migrationFiles s 0 := rfl
      _ = applyMigrationsAux
            ["002_add_score_to_tweets.sql", "003_make_approved_nullable.sql"] s1 0 := e1
      _ = applyMigrationsAux ["003_make_approved_nullable.sql"] s2 0 := e2
      _ = applyMigrationsAux [] s3 0 := e3
      _ = Except.ok (s3, 0) := rfl
  · exact ⟨by rfl, rfl, by rfl⟩

/-- Witness for C6: a store at the latest schema with a nonempty,
unrelated ledger. -/
theorem C6_applyMigrations_idempotent_witness :
    ∃ s', applyMigrations ⟨["unrelated.sql"], some tweetsColumns⟩ =
        Except.ok (s', 0) ∧
      s'.tweets = (⟨["unrelated.sql"], some tweetsColumns⟩ : MigState).tweets :=
  C6_applyMigrations_idempotent.1 ⟨["unrelated.sql"], some tweetsColumns⟩ rfl

/-! ## C7 — buildPromptWithExamples -/

theorem badShownDecision_eq (ex : FewShotExample) :
    badShownDecision ex =
      (match ex.correction with
       | some c => if c = "" then ex.response else c
       | none => ex.response) := by
  unfold badShownDecision
  cases ex.correction with
  | none => rfl
  | some c =>
    by_cases hc : c = ""
    · simp [hc]
    · have hb : (c == "") = false :=
        Bool.eq_false_iff.mpr (fun hb => hc (beq_iff_eq.mp hb))
      simp [hb, hc]

theorem infix_decision_exampleBlock (i : Nat) (t d : String) :
    ("decision: " ++ d ++ "\n").toList <:+: (exampleBlock i t d).toList := by
  have hsplit : exampleBlock i t d =
      ("example " ++ toString (i + 1) ++ ":\ntweet: \"" ++ truncateTweet t ++ "\"\n") ++
        (("decision: " ++ d ++ "\n") ++ "\n") := by
    unfold exampleBlock
    rw [show ("\"\ndecision: " : String) = "\"\n" ++ "decision: " from rfl,
      show ("\n\n" : String) = "\n" ++ "\n" from rfl]
    simp only [String.append_assoc]
  rw [hsplit]
  exact ⟨("example " ++ toString (i + 1) ++ ":\ntweet: \"" ++ truncateTweet t ++
      "\"\n").toList,
    ("\n" : String).toList, by simp [toList_append, List.append_assoc]⟩

theorem infix_badBlocksFrom {ex : FewShotExample} :
    ∀ (exs : List FewShotExample), ex ∈ exs → ∀ i : Nat,
      ("decision: " ++ badShownDecision ex ++ "\n").toList <:+:
        (badBlocksFrom i exs).toList := by
  intro exs
  induction exs with
  | nil => intro h; cases h
  | cons y ys ih =>
    intro hmem i
    have hunf : badBlocksFrom i (y :: ys) =
        exampleBlock i y.tweetText (badShownDecision y) ++ badBlocksFrom (i + 1) ys := rfl
    rcases List.mem_cons.mp hmem with rfl | hmem'
    · refine (infix_decision_exampleBlock i ex.tweetText (badShownDecision ex)).trans ?_
      rw [hunf]
      exact ⟨[], (badBlocksFrom (i + 1) ys).toList, by simp [toList_append]⟩
    · refine (ih hmem' (i + 1)).trans ?_
      rw [hunf]
      exact ⟨(exampleBlock i y.tweetText (badShownDecision y)).toList, [],
        by simp [toList_append]⟩

theorem infix_goodBlocksFrom {ex : FewShotExample} :
    ∀ (exs : List FewShotExample), ex ∈ exs → ∀ i : Nat,
      ("decision: " ++ ex.response ++ "\n").toList <:+:
        (goodBlocksFrom i exs).toList := by
  intro exs
  induction exs with
  | nil => intro h; cases h
  | cons y ys ih =>
    intro hmem i
    have hunf : goodBlocksFrom i (y :: ys) =
        exampleBlock i y.tweetText y.response ++ goodBlocksFrom (i + 1) ys := rfl
    rcases List.mem_cons.mp hmem with rfl | hmem'
    · refine (infix_decision_exampleBlock i ex.tweetText ex.response).trans ?_
      rw [hunf]
      exact ⟨[], (goodBlocksFrom (i + 1) ys).toList, by simp [toList_append]⟩
    · refine (ih hmem' (i + 1)).trans ?_
      rw [hunf]
      exact ⟨(exampleBlock i y.tweetText y.response).toList, [],
        by simp [toList_append]⟩

theorem buildPrompt_take5 (basePrompt : String) (examples : List FewShotExample) :
    buildPromptWithExamples basePrompt examples =
      buildPromptWithExamples basePrompt
        (((examples.filter (fun e => e.type == GoldExampleType.GOOD)).take 5) ++
          ((examples.filter (fun e => e.type == GoldExampleType.BAD)).take 5)) := by
  have hG : ((((examples.filter (fun e => e.type == GoldExampleType.GOOD)).take 5) ++
      ((examples.filter (fun e => e.type == GoldExampleType.BAD)).take 5)).filter
        (fun e => e.type == GoldExampleType.GOOD)).take 5 =
      (examples.filter (fun e => e.type == GoldExampleType.GOOD)).take 5 := by
    rw [List.filter_append]
    have h1 : ((examples.filter (fun e => e.type == GoldExampleType.GOOD)).take 5).filter
        (fun e => e.type == GoldExampleType.GOOD) =
        (examples.filter (fun e => e.type == GoldExampleType.GOOD)).take 5 :=
      List.filter_eq_self.mpr (fun a ha => (List.mem_filter.mp (List.mem_of_mem_take ha)).2)
    have h2 : ((examples.filter (fun e => e.type == GoldExampleType.BAD)).take 5).filter
        (fun e => e.type == GoldExampleType.GOOD) = [] :=
      List.filter_eq_nil_iff.mpr (fun a ha => by
        have hb := (List.mem_filter.mp (List.mem_of_mem_take ha)).2
        have ht : a.type = GoldExampleType.BAD := beq_iff_eq.mp hb
        simp [ht])
    rw [h1, h2, List.append_nil, List.take_take]
    simp
  have hB : ((((examples.filter (fun e => e.type == GoldExampleType.GOOD)).take 5) ++
      ((examples.filter (fun e => e.type == GoldExampleType.BAD)).take 5)).filter
        (fun e => e.type == GoldExampleType.BAD)).take 5 =
      (examples.filter (fun e => e.type == GoldExampleType.BAD)).take 5 := by
    rw [List.filter_append]
    have h1 : ((examples.filter (fun e => e.type == GoldExampleType.GOOD)).take 5).filter
        (fun e => e.type == GoldExampleType.BAD) = [] :=
      List.filter_eq_nil_iff.mpr (fun a ha => by
        have hb := (List.mem_filter.mp (List.mem_of_mem_take ha)).2
        have ht : a.type = GoldExampleType.GOOD := beq_iff_eq.mp hb
        simp [ht])
    have h2 : ((examples.filter (fun e => e.type == GoldExampleType.BAD)).take 5).filter
        (fun e => e.type == GoldExampleType.BAD) =
        (examples.filter (fun e => e.type == GoldExampleType.BAD)).take 5 :=
      List.filter_eq_self.mpr (fun a ha => (List.mem_filter.mp (List.mem_of_mem_take ha)).2)
    rw [h1, h2, List.nil_append, List.take_take]
    simp
  simp only [buildPromptWithExamples, hG, hB]

/-- C7: `buildPromptWithExamples` keeps at most the first 5 GOOD-type and
first 5 BAD-type examples in input order (the output only depends on
those), shows for each kept BAD example the human correction when a
non-empty one is present and otherwise the raw judge response, always
shows the raw response for kept GOOD examples, and returns the base
instruction unchanged when there are no examples. -/
theorem C7_buildPromptWithExamples_contract (basePrompt : String)
    (examples : List FewShotExample) :
    buildPromptWithExamples basePrompt [] = basePrompt ∧
    buildPromptWithExamples basePrompt examples =
      buildPromptWithExamples basePrompt
        (((examples.filter (fun e => e.type == GoldExampleType.GOOD)).take 5) ++
          ((examples.filter (fun e => e.type == GoldExampleType.BAD)).take 5)) ∧
    (∀ ex ∈ (examples.filter (fun e => e.type == GoldExampleType.BAD)).take 5,
      ("decision: " ++
          (match ex.correction with
           | some c => if c = "" then ex.response else c
           | none => ex.response) ++ "\n").toList <:+:
        (buildPromptWithExamples basePrompt examples).toList) ∧
    (∀ ex ∈ (examples.filter (fun e => e.type == GoldExampleType.GOOD)).take 5,
      ("decision: " ++ ex.response ++ "\n").toList <:+:
        (buildPromptWithExamples basePrompt examples).toList) := by
  refine ⟨rfl, buildPrompt_take5 basePrompt examples, ?_, ?_⟩
  · intro ex hex
    rw [← badShownDecision_eq ex]
    have hne : (examples.filter (fun e => e.type == GoldExampleType.BAD)).take 5 ≠ [] :=
      List.ne_nil_of_mem hex
    have hbadE : ((examples.filter (fun e => e.type == GoldExampleType.BAD)).take 5).isEmpty
        = false := by
      rcases hb : ((examples.filter (fun e => e.type == GoldExampleType.BAD)).take 5).isEmpty
        with - | -
      · exact hb
      · exact absurd (List.isEmpty_iff.mp hb) hne
    have hwhole : buildPromptWithExamples basePrompt examples =
        basePrompt ++
          "\n\n---\n\nfew-shot examples (calibration reference)\n\nthese are real examples of past decisions. use them to calibrate your bar.\n\n" ++
          ("rejected examples (learn what NOT to approve):\n\n" ++
            badBlocksFrom 0
              ((examples.filter (fun e => e.type == GoldExampleType.BAD)).take 5)) ++
          (if ((examples.filter (fun e => e.type == GoldExampleType.GOOD)).take 5).isEmpty
           then ""
           else "approved examples (learn what meets the bar):\n\n" ++
             goodBlocksFrom 0
               ((examples.filter (fun e => e.type == GoldExampleType.GOOD)).take 5)) ++
          "---\n\n" := by
      simp only [buildPromptWithExamples, hbadE, Bool.and_false, Bool.false_eq_true, if_false]
    rw [hwhole]
    refine (infix_badBlocksFrom _ hex 0).trans ?_
    refine ⟨(basePrompt ++
        "\n\n---\n\nfew-shot examples (calibration reference)\n\nthese are real examples of past decisions. use them to calibrate your bar.\n\n" ++
        "rejected examples (learn what NOT to approve):\n\n").toList,
      ((if ((examples.filter (fun e => e.type == GoldExampleType.GOOD)).take 5).isEmpty
        then ""
        else "approved examples (learn what meets the bar):\n\n" ++
          goodBlocksFrom 0
            ((examples.filter (fun e => e.type == GoldExampleType.GOOD)).take 5)) ++
        "---\n\n").toList, ?_⟩
    simp only [toList_append, List.append_assoc]
  · intro ex hex
    have hne : (examples.filter (fun e => e.type == GoldExampleType.GOOD)).take 5 ≠ [] :=
      List.ne_nil_of_mem hex
    have hgoodE : ((examples.filter (fun e => e.type == GoldExampleType.GOOD)).take 5).isEmpty
        = false := by
      rcases hb : ((examples.filter (fun e => e.type == GoldExampleType.GOOD)).take 5).isEmpty
        with - | -
      · exact hb
      · exact absurd (List.isEmpty_iff.mp hb) hne
    have hwhole : buildPromptWithExamples basePrompt examples =
        basePrompt ++
          "\n\n---\n\nfew-shot examples (calibration reference)\n\nthese are real examples of past decisions. use them to calibrate your bar.\n\n" ++
          (if ((examples.filter (fun e => e.type == GoldExampleType.BAD)).take 5).isEmpty
           then ""
           else "rejected examples (learn what NOT to approve):\n\n" ++
             badBlocksFrom 0
               ((examples.filter (fun e => e.type == GoldExampleType.BAD)).take 5)) ++
          ("approved examples (learn what meets the bar):\n\n" ++
            goodBlocksFrom 0
              ((examples.filter (fun e => e.type == GoldExampleType.GOOD)).take 5)) ++
          "---\n\n" := by
      simp only [buildPromptWithExamples, hgoodE, Bool.false_and, Bool.false_eq_true, if_false]
    rw [hwhole]
    refine (infix_goodBlocksFrom _ hex 0).trans ?_
    refine ⟨(basePrompt ++
        "\n\n---\n\nfew-shot examples (calibration reference)\n\nthese are real examples of past decisions. use them to calibrate your bar.\n\n" ++
        (if ((examples.filter (fun e => e.type == GoldExampleType.BAD)).take 5).isEmpty
         then ""
         else "rejected examples (learn what NOT to approve):\n\n" ++
           badBlocksFrom 0
             ((examples.filter (fun e => e.type == GoldExampleType.BAD)).take 5)) ++
        "approved examples (learn what meets the bar):\n\n").toList,
      ("---\n\n" : String).toList, ?_⟩
    simp only [toList_append, List.append_assoc]

/-- Witness for C7: the correction of a concrete BAD example appears as
its decision line in the produced instruction. -/
theorem C7_buildPromptWithExamples_contract_witness :
    ("decision: " ++ "Rejected: off-topic." ++ "\n").toList <:+:
      (buildPromptWithExamples "BASE" [fixtureGoodExample, fixtureBadExample]).toList := by
  have h := (C7_buildPromptWithExamples_contract "BASE"
    [fixtureGoodExample, fixtureBadExample]).2.2.1 fixtureBadExample (by decide)
  exact h
